import Mathlib

/-!
Verification development for the UTXO module of the privacyjs repository
(`src/utxo.js`).  The module decodes a compact on-chain coin record into full
secp256k1 points, tests ownership through a stealth engine, hashes a coin
together with a destination address for signing, signs that digest, and
reconstructs a record from a freshly generated proof.

The collaborators of `utxo.js` (`stealth.js`, `common.js`, `crypto.js` and the
elliptic-curve library) are not part of the sources; where a claim depends on
them they are modelled from the specification (doc comments starting with
"Modelled from the spec:") or taken as explicit function parameters.
Machine integers and big integers are embedded as `Nat`; byte buffers as
`List Nat`; JavaScript strings as `String`; a JS `null`/object result as
`Option`; a thrown assertion as `Except.error`.
-/

set_option maxRecDepth 100000

namespace PrivacyJS

/-- The secp256k1 field prime `2^256 - 2^32 - 977` (the curve is
`y^2 = x^3 + 7` over this field). -/
def fieldPrime : Nat := 2 ^ 256 - 2 ^ 32 - 977

/-- An affine elliptic-curve point as used by the point codec: an
X-coordinate and a Y-coordinate, both big-endian integers. -/
structure Pt where
  x : Nat
  y : Nat
deriving DecidableEq, Repr

/-- Fuel-driven binary modular exponentiation: `powModAux m fuel b e acc`
computes `acc * b ^ e % m` provided `fuel ≥ e` steps are available. -/
def powModAux (m : Nat) : Nat → Nat → Nat → Nat → Nat
  | 0, _, _, acc => acc
  | fuel + 1, b, e, acc =>
      if e = 0 then acc
      else powModAux m fuel (b * b % m) (e / 2)
        (if e % 2 = 1 then acc * b % m else acc)

/-- `powMod b e m = b ^ e % m`, computable on 256-bit inputs. -/
def powMod (b e m : Nat) : Nat := powModAux m e (b % m) e (1 % m)

/-- Modelled from the spec: the square-root step of the point codec
(`decompress`, §4.1), implemented in the external elliptic-curve library.
Since `fieldPrime ≡ 3 (mod 4)` the candidate root of `a` is
`a ^ ((p+1)/4) mod p`; the result is checked, and `none` is returned when no
square root of `a` exists modulo the field prime. -/
def sqrtMod (a : Nat) : Option Nat :=
  let a' := a % fieldPrime
  let r := powMod a' ((fieldPrime + 1) / 4) fieldPrime
  if r * r % fieldPrime = a' then some r else none

/-- Modelled from the spec: `decompress(xCoordinate, parityOdd) -> Point`
(§4.1) of the point codec, implemented by the external elliptic-curve
library's `pointFromX`.  It recovers the point on the curve with the given X
whose Y has the requested parity and fails (`none`, the spec's
`InvalidPoint`) when `x^3 + 7` has no square root modulo the field prime. -/
def pointFromX (parityOdd : Bool) (x : Nat) : Option Pt :=
  match sqrtMod ((x ^ 3 + 7) % fieldPrime) with
  | none => none
  | some y =>
      if (y % 2 == 1) = parityOdd then some ⟨x, y⟩
      else if ((fieldPrime - y) % fieldPrime % 2 == 1) = parityOdd then
        some ⟨x, (fieldPrime - y) % fieldPrime⟩
      else none

/-- Value of a hexadecimal digit character (0 for any other character). -/
def hexVal (c : Char) : Nat :=
  if '0' ≤ c ∧ c ≤ '9' then c.toNat - '0'.toNat
  else if 'a' ≤ c ∧ c ≤ 'f' then c.toNat - 'a'.toNat + 10
  else if 'A' ≤ c ∧ c ≤ 'F' then c.toNat - 'A'.toNat + 10
  else 0

/-- Modelled from the spec: big-integer construction from the hex strings at
the on-chain boundary (§6, "all as hex-encoded big integers / strings at the
boundary"), as performed by `BigInteger(...)` from the missing `crypto.js`. -/
def parseHexNat (s : String) : Nat :=
  s.data.foldl (fun acc c => acc * 16 + hexVal c) 0

/-- JavaScript's `parseInt` on the decimal strings used for parity bits,
reading the leading run of decimal digits (an empty run yields 0, matching
the even branch `NaN % 2 === 1 → false`). -/
def parseIntD (s : String) : Nat :=
  (s.data.takeWhile Char.isDigit).foldl
    (fun acc c => acc * 10 + (c.toNat - '0'.toNat)) 0

/-- `natToBytesBEAux k n acc` prepends the `k` low-order big-endian bytes of
`n` to `acc`. -/
def natToBytesBEAux : Nat → Nat → List Nat → List Nat
  | 0, _, acc => acc
  | k + 1, n, acc => natToBytesBEAux k (n / 256) (n % 256 :: acc)

/-- The `len`-byte big-endian representation of `n`. -/
def natToBytesBE (len n : Nat) : List Nat := natToBytesBEAux len n []

/-- The big-endian integer denoted by a byte buffer, as computed by
`BigInteger.fromBuffer`. -/
def bytesToNatBE (l : List Nat) : Nat :=
  l.foldl (fun acc b => acc * 256 + b) 0

/-- `Point.getEncoded(false)`: the 65-byte uncompressed encoding, a `0x04`
lead byte followed by the 32-byte big-endian X and Y coordinates. -/
def getEncoded (pt : Pt) : List Nat :=
  4 :: (natToBytesBE 32 pt.x ++ natToBytesBE 32 pt.y)

/-- The hexadecimal digit character for `n < 16`. -/
def hexDigit (n : Nat) : Char :=
  if n < 10 then Char.ofNat ('0'.toNat + n) else Char.ofNat ('a'.toNat + n - 10)

/-- Two-character lower-case hex rendering of one byte. -/
def byteToHex (b : Nat) : String :=
  String.mk [hexDigit (b / 16 % 16), hexDigit (b % 16)]

/-- Modelled from the spec: `bintohex` from the missing `common.js` — hex
encoding of a byte buffer. -/
def bintohex (l : List Nat) : String := String.join (l.map byteToHex)

/-- Decodes pairs of hex characters into bytes. -/
def hexPairsToBytes : List Char → List Nat
  | a :: b :: rest => (hexVal a * 16 + hexVal b) :: hexPairsToBytes rest
  | [a] => [hexVal a]
  | [] => []

/-- Modelled from the spec: `hextobin` from the missing `common.js` — decode
a hex string into the byte buffer it denotes. -/
def hextobin (s : String) : List Nat := hexPairsToBytes s.data

/-- Modelled from the spec: `numberToHex` from the missing `common.js`.  At
this boundary the ciphertext fields are already hex strings and §6 requires
that "exact field order and hex formatting must be preserved", so on them it
is the identity. -/
def numberToHex (s : String) : String := s

/-- The nested on-chain record passed to the `UTXO` constructor:
`'0'` holds the three X-coordinates, `'1'` the three parity bits, `'2'` the
two ciphertexts, `'3'` the index. -/
structure UTXOType where
  cX : String
  pX : String
  tX : String
  cYBit : String
  pYBit : String
  tYBit : String
  encAmount : String
  encMask : String
  index : Nat
deriving DecidableEq, Repr

/-- The result object of `Stealth.checkTransactionProof` (external
`stealth.js`): decoded amount, decoded mask, one-time private key and the
corresponding public key. -/
structure DecodedData where
  amount : String
  mask : String
  privKey : String
  pubKey : String
deriving DecidableEq, Repr

/-- Modelled from the spec: the stealth ownership engine (§4.2) lives in the
missing `stealth.js`; `checkOwnership` builds it from
`generateKeys(privateSpendKey)` and calls `checkTransactionProof` with the
encoded ephemeral transaction public key, the encoded one-time address, and
the two ciphertexts.  It is embedded as an explicit function parameter of
that exact shape, returning `some` decoded data on ownership and `none`
("not mine") otherwise. -/
def StealthCheck : Type :=
  String → List Nat → List Nat → String → String → Option DecodedData

/-- The in-memory `UTXO` instance: the stored string fields, the index, the
three decoded points, and the three fields populated by a successful
ownership check (absent, i.e. `none`, until then). -/
structure UTXO where
  commitmentX : String
  commitmentYBit : String
  pubkeyX : String
  pubkeyYBit : String
  amount : String
  mask : String
  txPubX : String
  txPubYBit : String
  index : Nat
  lfStealth : Pt
  lfTxPublicKey : Pt
  lfCommitment : Pt
  decodedAmount : Option String
  decodedMask : Option String
  privKey : Option String
deriving DecidableEq, Repr

/-- The `UTXO` constructor: stores the record fields (ciphertexts through
`numberToHex`), and decodes the three points with
`pointFromX(parseInt(bit) % 2 === 1, BigInteger(x))`; a failed decompression
(the spec's `InvalidPoint`) fails the whole construction. -/
def UTXO.make (u : UTXOType) : Option UTXO :=
  match pointFromX (parseIntD u.pYBit % 2 == 1) (parseHexNat u.pX),
        pointFromX (parseIntD u.tYBit % 2 == 1) (parseHexNat u.tX),
        pointFromX (parseIntD u.cYBit % 2 == 1) (parseHexNat u.cX) with
  | some st, some txp, some cm =>
      some { commitmentX := u.cX
             commitmentYBit := u.cYBit
             pubkeyX := u.pX
             pubkeyYBit := u.pYBit
             amount := numberToHex u.encAmount
             mask := numberToHex u.encMask
             txPubX := u.tX
             txPubYBit := u.tYBit
             index := u.index
             lfStealth := st
             lfTxPublicKey := txp
             lfCommitment := cm
             decodedAmount := none
             decodedMask := none
             privKey := none }
  | _, _, _ => none

/-- `UTXO.checkOwnership(privateSpendKey)`: delegates to the stealth
engine's `checkTransactionProof` on the 65-byte uncompressed encodings of the
ephemeral transaction public key and the one-time address together with the
stored ciphertexts; on success assigns the three decoded fields.  Returns the
engine's result paired with the (possibly updated) instance state. -/
def UTXO.checkOwnership (oracle : StealthCheck) (u : UTXO)
    (privateSpendKey : String) : Option DecodedData × UTXO :=
  match oracle privateSpendKey (getEncoded u.lfTxPublicKey)
      (getEncoded u.lfStealth) u.amount u.mask with
  | some dd =>
      (some dd, { u with decodedAmount := some dd.amount
                         decodedMask := some dd.mask
                         privKey := some dd.privKey })
  | none => (none, u)

/-- The key pair returned by `UTXO.getRingCTKeys`. -/
structure RingCTKeys where
  privKey : String
  pubKey : String
deriving DecidableEq, Repr

/-- `UTXO.getRingCTKeys(privateSpendKey)`: runs `checkOwnership` and then
`assert`s the result, so an ownership mismatch raises (modelled as
`Except.error` carrying the assertion message). -/
def UTXO.getRingCTKeys (oracle : StealthCheck) (u : UTXO)
    (privateSpendKey : String) : Except String (RingCTKeys × UTXO) :=
  match u.checkOwnership oracle privateSpendKey with
  | (some dd, u') => Except.ok (⟨dd.privKey, dd.pubKey⟩, u')
  | (none, _) => Except.error "assertion failed: cannot decode utxo that does not belong"

/-- `UTXO.getHashData(targetAddress)`: `soliditySha3` (external, taken as a
parameter) of the hex rendering of the concatenation of the 65-byte encoded
commitment, the 65-byte encoded one-time address, and the bytes of the
target address, in that order. -/
def UTXO.getHashData (sha3 : String → String) (u : UTXO)
    (targetAddress : String) : String :=
  sha3 (bintohex (getEncoded u.lfCommitment ++ getEncoded u.lfStealth
    ++ hextobin targetAddress))

/-- An ECDSA signature: the `(r, s)` pair over the curve order. -/
def Sig : Type := Nat × Nat

/-- `UTXO.sign(privateKey, targetAddress)`: derives the signing key from the
supplied private key and ECDSA-signs `getHashData(targetAddress)`; the
external elliptic library's key derivation and signing are taken together as
the parameter `ecSign : privateKey → message → signature`. -/
def UTXO.sign (ecSign : String → String → Sig) (sha3 : String → String)
    (u : UTXO) (privateKey targetAddress : String) : Sig :=
  ecSign privateKey (u.getHashData sha3 targetAddress)

/-- `stealth.genTransactionProof`'s output: three 65-byte uncompressed point
buffers, the two ciphertexts, the plaintext mask, and the index. -/
structure Proof where
  onetimeAddress : List Nat
  txPublicKey : List Nat
  commitment : List Nat
  encryptedAmount : String
  mask : String
  encryptedMask : String
  index : Nat
deriving DecidableEq, Repr

/-- `Buffer.slice(a, b)`: the bytes at positions `a` (inclusive) to `b`
(exclusive). -/
def bufSlice (l : List Nat) (a b : Nat) : List Nat := (l.drop a).take (b - a)

/-- `Buffer.slice(-n)`: the last `n` bytes of the buffer. -/
def bufSliceNeg (l : List Nat) (n : Nat) : List Nat := l.drop (l.length - n)

/-- `buffer.join('')` on a byte buffer: the concatenation of the decimal
renderings of the byte values (JavaScript `TypedArray.prototype.join`). -/
def decJoin (l : List Nat) : String := String.join (l.map Nat.repr)

/-- The parity-bit string `fromProof` computes for one point buffer:
`BigInteger.fromBuffer(buf.slice(-33)).isEven() ? '0' : '1'`. -/
def parityBitStr (l : List Nat) : String :=
  if bytesToNatBE (bufSliceNeg l 33) % 2 = 0 then "0" else "1"

/-- `UTXO.fromProof(proof)`: rebuilds the constructor's nested record from a
proof — X-coordinate strings via `slice(1, 33).join('')`, parity bits via
the last-33-byte parity test — and constructs the `UTXO` from it. -/
def UTXO.fromProof (proof : Proof) : Option UTXO :=
  UTXO.make
    { cX := decJoin (bufSlice proof.commitment 1 33)
      pX := decJoin (bufSlice proof.onetimeAddress 1 33)
      tX := decJoin (bufSlice proof.txPublicKey 1 33)
      cYBit := parityBitStr proof.commitment
      pYBit := parityBitStr proof.onetimeAddress
      tYBit := parityBitStr proof.txPublicKey
      encAmount := proof.encryptedAmount
      encMask := proof.encryptedMask
      index := proof.index }

/-! ## Supporting lemmas -/

theorem pointFromX_some (o : Bool) (x : Nat) (pt : Pt)
    (h : pointFromX o x = some pt) :
    pt.x = x ∧ (pt.y % 2 = 1 ↔ o = true) := by
  unfold pointFromX at h
  cases hs : sqrtMod ((x ^ 3 + 7) % fieldPrime) with
  | none => rw [hs] at h; exact absurd h (by simp)
  | some y =>
      rw [hs] at h
      dsimp only at h
      by_cases h1 : (y % 2 == 1) = o
      · rw [if_pos h1] at h
        injection h with h
        subst h
        exact ⟨rfl, by cases o <;> simp_all⟩
      · rw [if_neg h1] at h
        by_cases h2 : ((fieldPrime - y) % fieldPrime % 2 == 1) = o
        · rw [if_pos h2] at h
          injection h with h
          subst h
          exact ⟨rfl, by cases o <;> simp_all⟩
        · rw [if_neg h2] at h
          exact absurd h (by simp)

theorem pointFromX_none_of_sqrt_none (o : Bool) (x : Nat)
    (h : sqrtMod ((x ^ 3 + 7) % fieldPrime) = none) :
    pointFromX o x = none := by
  unfold pointFromX
  rw [h]

theorem natToBytesBEAux_length (k : Nat) :
    ∀ (n : Nat) (acc : List Nat),
      (natToBytesBEAux k n acc).length = k + acc.length := by
  induction k with
  | zero => intro n acc; simp [natToBytesBEAux]
  | succ k ih =>
      intro n acc
      rw [natToBytesBEAux, ih]
      simp
      omega

theorem natToBytesBE_length (len n : Nat) : (natToBytesBE len n).length = len := by
  unfold natToBytesBE
  rw [natToBytesBEAux_length]
  rfl

theorem getEncoded_length (pt : Pt) : (getEncoded pt).length = 65 := by
  simp [getEncoded, natToBytesBE_length]

theorem bytesToNatBE_foldl (l : List Nat) (acc : Nat) :
    l.foldl (fun a b => a * 256 + b) acc = acc * 256 ^ l.length + bytesToNatBE l := by
  induction l generalizing acc with
  | nil => simp [bytesToNatBE]
  | cons x l ih =>
      have hx : bytesToNatBE (x :: l) = l.foldl (fun a b => a * 256 + b) x := by
        simp [bytesToNatBE]
      rw [List.foldl_cons, ih (acc * 256 + x), hx, ih x, List.length_cons]
      ring

theorem bytesToNatBE_append (A B : List Nat) :
    bytesToNatBE (A ++ B) = bytesToNatBE A * 256 ^ B.length + bytesToNatBE B := by
  unfold bytesToNatBE
  rw [List.foldl_append]
  exact bytesToNatBE_foldl B _

/-! ## Concrete fixtures used by witnesses and counterexamples -/

/-- X-coordinate of the secp256k1 base point. -/
def gx : Nat := 55066263022277343669578718895168534326250603453777594175500187360389116729240

/-- Y-coordinate of the secp256k1 base point (an even number). -/
def gy : Nat := 32670510020758816978083085130507043184471273380659243275938904335757337482424

/-- Lower-case hex rendering of `gx`, as it would appear on chain. -/
def gxHex : String := "79be667ef9dcbbac55a06295ce870b07029bfcdb2dce28d959f2815b16f81798"

/-- The 65-byte uncompressed encoding of the base point. -/
def gBuf : List Nat := getEncoded ⟨gx, gy⟩

/-- A compact record whose three points are all the base point. -/
def gRecord : UTXOType :=
  { cX := gxHex, pX := gxHex, tX := gxHex
    cYBit := "0", pYBit := "0", tYBit := "0"
    encAmount := "0a", encMask := "0b", index := 7 }

/-- The `UTXO` that decoding `gRecord` produces. -/
def gDecoded : UTXO :=
  { commitmentX := gxHex, commitmentYBit := "0"
    pubkeyX := gxHex, pubkeyYBit := "0"
    amount := "0a", mask := "0b"
    txPubX := gxHex, txPubYBit := "0"
    index := 7
    lfStealth := ⟨gx, gy⟩, lfTxPublicKey := ⟨gx, gy⟩, lfCommitment := ⟨gx, gy⟩
    decodedAmount := none, decodedMask := none, privKey := none }

/-- `gRecord` with the one-time-address X replaced by 5, whose `x^3 + 7 = 132`
has no square root modulo the field prime. -/
def badRecord : UTXOType := { gRecord with pX := "05" }

/-- A proof whose three point buffers all encode the base point. -/
def gProof : Proof :=
  { onetimeAddress := gBuf, txPublicKey := gBuf, commitment := gBuf
    encryptedAmount := "0a", mask := "0b", encryptedMask := "0c", index := 7 }

/-- The number that `slice(1, 33).join('')` turns the base point's X into
once the joined decimal string is read back as a big integer: a 102-digit
value far above the field prime, not `gx`. -/
def badX : Nat := 617508878721467538360005122712125268277762855301137715620529469427345663900516793633065220595396946

/-- A `UTXO` state used to exercise the ownership plumbing; its points need
not lie on the curve because the plumbing never inspects them. -/
def uTest : UTXO :=
  { commitmentX := "aa", commitmentYBit := "0"
    pubkeyX := "bb", pubkeyYBit := "1"
    amount := "0a", mask := "0b"
    txPubX := "cc", txPubYBit := "0"
    index := 3
    lfStealth := ⟨1, 2⟩, lfTxPublicKey := ⟨3, 4⟩, lfCommitment := ⟨5, 6⟩
    decodedAmount := none, decodedMask := none, privKey := none }

/-- `uTest` with different stored strings and index but the same points. -/
def uTest2 : UTXO := { uTest with amount := "ff", mask := "ee", index := 9 }

/-- A stealth engine that rejects every coin. -/
def oracleNone : StealthCheck := fun _ _ _ _ _ => none

/-- A stealth engine that accepts every coin and echoes the candidate key in
every field of the decoded result. -/
def oracleKey : StealthCheck := fun k _ _ _ _ => some ⟨k, k, k, k⟩

/-- Digest stand-in for `soliditySha3`. -/
def sha3Test : String → String := fun s => s

/-- Signature stand-in for the elliptic library's key-derive-and-sign. -/
def ecSignTest : String → String → Sig := fun k m => (k.length, m.length)

/-! ## Claim theorems -/

/-- C1: for every UTXO instance `u` and private spend key `k`,
`checkOwnership k` returns exactly the stealth engine's transaction-proof
check applied to the 65-byte uncompressed encodings of the ephemeral
transaction public key and the one-time address together with the stored
amount and mask ciphertexts; and whenever that result is a success value,
`decodedAmount`, `decodedMask` and `privKey` are set to the amount, mask and
privKey fields of the returned result. -/
theorem checkOwnership_delegates_and_sets (oracle : StealthCheck)
    (u : UTXO) (k : String) :
    (u.checkOwnership oracle k).1
      = oracle k (getEncoded u.lfTxPublicKey) (getEncoded u.lfStealth)
          u.amount u.mask
    ∧ (getEncoded u.lfTxPublicKey).length = 65
    ∧ (getEncoded u.lfStealth).length = 65
    ∧ ∀ d, (u.checkOwnership oracle k).1 = some d →
        (u.checkOwnership oracle k).2.decodedAmount = some d.amount
        ∧ (u.checkOwnership oracle k).2.decodedMask = some d.mask
        ∧ (u.checkOwnership oracle k).2.privKey = some d.privKey := by
  unfold UTXO.checkOwnership
  cases oracle k (getEncoded u.lfTxPublicKey) (getEncoded u.lfStealth)
      u.amount u.mask with
  | none =>
      refine ⟨rfl, getEncoded_length _, getEncoded_length _, ?_⟩
      intro d hd
      exact absurd hd (by simp)
  | some dd =>
      refine ⟨rfl, getEncoded_length _, getEncoded_length _, ?_⟩
      intro d hd
      injection hd with hd
      subst hd
      exact ⟨rfl, rfl, rfl⟩

/-- C1 witness: with a concrete engine that echoes the key, the fields are
populated from the returned result. -/
theorem checkOwnership_delegates_and_sets_witness :
    (uTest.checkOwnership oracleKey "k1").2.decodedAmount = some "k1"
    ∧ (uTest.checkOwnership oracleKey "k1").2.privKey = some "k1" :=
  have h := (checkOwnership_delegates_and_sets oracleKey uTest "k1").2.2.2
    ⟨"k1", "k1", "k1", "k1"⟩ (by decide)
  ⟨h.1, h.2.2⟩

/-- C2 counterexample: on an ownership mismatch `getRingCTKeys` does not
return an explicit failure value — the `assert` raises. -/
theorem getRingCTKeys_throws_on_mismatch :
    uTest.getRingCTKeys oracleNone "k"
      = Except.error "assertion failed: cannot decode utxo that does not belong" := rfl

/-- C2 amended: on an ownership mismatch `checkOwnership` returns the
explicit failure value and leaves the instance unchanged, while
`getRingCTKeys` raises the assertion error (the instance state is still
unchanged because the failed `checkOwnership` never wrote to it). -/
theorem ownership_mismatch_behavior (oracle : StealthCheck) (u : UTXO)
    (k : String)
    (h : oracle k (getEncoded u.lfTxPublicKey) (getEncoded u.lfStealth)
          u.amount u.mask = none) :
    u.checkOwnership oracle k = (none, u)
    ∧ u.getRingCTKeys oracle k
        = Except.error "assertion failed: cannot decode utxo that does not belong" := by
  have hco : u.checkOwnership oracle k = (none, u) := by
    unfold UTXO.checkOwnership
    rw [h]
  refine ⟨hco, ?_⟩
  unfold UTXO.getRingCTKeys
  rw [hco]

/-- C2 witness: concrete instantiation with the rejecting engine. -/
theorem ownership_mismatch_behavior_witness :
    uTest.checkOwnership oracleNone "k" = (none, uTest)
    ∧ uTest.getRingCTKeys oracleNone "k"
        = Except.error "assertion failed: cannot decode utxo that does not belong" :=
  ownership_mismatch_behavior oracleNone uTest "k" rfl

/-- C4 counterexample: two successive successful ownership checks with
different keys write `decodedAmount` twice, with different values, so the
field is not written at most once over the instance's lifetime. -/
theorem decoded_fields_rewritten :
    (uTest.checkOwnership oracleKey "k1").2.decodedAmount = some "k1"
    ∧ ((uTest.checkOwnership oracleKey "k1").2.checkOwnership
        oracleKey "k2").2.decodedAmount = some "k2" := by decide

/-- C4 amended: `decodedAmount`, `decodedMask` and `privKey` are assigned
exactly by the successful `checkOwnership` calls — every success overwrites
all three with the new result, a failure leaves the instance unchanged — so
they are written at most once only when at most one call succeeds; there is
no set-once guard in the code. -/
theorem decoded_fields_assignment (oracle : StealthCheck) (u : UTXO)
    (k : String) :
    ((u.checkOwnership oracle k).1 = none → (u.checkOwnership oracle k).2 = u)
    ∧ ∀ d, (u.checkOwnership oracle k).1 = some d →
        (u.checkOwnership oracle k).2
          = { u with decodedAmount := some d.amount
                     decodedMask := some d.mask
                     privKey := some d.privKey } := by
  unfold UTXO.checkOwnership
  cases oracle k (getEncoded u.lfTxPublicKey) (getEncoded u.lfStealth)
      u.amount u.mask with
  | none =>
      refine ⟨fun _ => rfl, ?_⟩
      intro d hd
      exact absurd hd (by simp)
  | some dd =>
      refine ⟨fun hn => absurd hn (by simp), ?_⟩
      intro d hd
      injection hd with hd
      subst hd
      rfl

/-- C4 witness: a failed call leaves the instance unchanged and a successful
call produces exactly the field update. -/
theorem decoded_fields_assignment_witness :
    (uTest.checkOwnership oracleNone "k").2 = uTest
    ∧ (uTest.checkOwnership oracleKey "k").2
        = { uTest with decodedAmount := some "k"
                       decodedMask := some "k"
                       privKey := some "k" } :=
  ⟨(decoded_fields_assignment oracleNone uTest "k").1 rfl,
   (decoded_fields_assignment oracleKey uTest "k").2 ⟨"k", "k", "k", "k"⟩ rfl⟩

/-- C7: `getHashData a` is the `soliditySha3` digest of the concatenation of
the commitment's 65-byte encoding, then the one-time address's 65-byte
encoding, then the bytes of `a`, in that order; and it is a function of
those three values only (any instance with the same two points yields the
same digest for the same address). -/
theorem getHashData_digest (sha3 : String → String) (u : UTXO) (a : String) :
    u.getHashData sha3 a
      = sha3 (bintohex (getEncoded u.lfCommitment ++ getEncoded u.lfStealth
          ++ hextobin a))
    ∧ ∀ u' : UTXO, u'.lfCommitment = u.lfCommitment →
        u'.lfStealth = u.lfStealth →
        u'.getHashData sha3 a = u.getHashData sha3 a := by
  refine ⟨rfl, ?_⟩
  intro u' h1 h2
  unfold UTXO.getHashData
  rw [h1, h2]

/-- C7 witness: an instance differing in ciphertexts and index but with the
same points hashes identically. -/
theorem getHashData_digest_witness :
    uTest2.getHashData sha3Test "1234" = uTest.getHashData sha3Test "1234" :=
  (getHashData_digest sha3Test uTest "1234").2 uTest2 rfl rfl

/-- C8: `sign p a` signs exactly the digest `getHashData a` of the same
instance with the key derived from `p`; no other data enters the signed
digest (instances with equal digests produce equal signatures). -/
theorem sign_signs_hash (ecSign : String → String → Sig)
    (sha3 : String → String) (u : UTXO) (pk a : String) :
    u.sign ecSign sha3 pk a = ecSign pk (u.getHashData sha3 a)
    ∧ ∀ u' : UTXO, u'.getHashData sha3 a = u.getHashData sha3 a →
        u'.sign ecSign sha3 pk a = u.sign ecSign sha3 pk a := by
  refine ⟨rfl, ?_⟩
  intro u' h
  unfold UTXO.sign
  rw [h]

/-- C8 witness: two instances with the same points sign identically. -/
theorem sign_signs_hash_witness :
    uTest2.sign ecSignTest sha3Test "0abc" "1234"
      = uTest.sign ecSignTest sha3Test "0abc" "1234" :=
  (sign_signs_hash ecSignTest sha3Test uTest "0abc" "1234").2 uTest2 (by decide)

attribute [local irreducible] powModAux in
/-- Inversion of `UTXO.make`: a successful construction determines every
field of the result. -/
theorem make_inv (r : UTXOType) (u : UTXO) (h : UTXO.make r = some u) :
    pointFromX (parseIntD r.pYBit % 2 == 1) (parseHexNat r.pX) = some u.lfStealth
    ∧ pointFromX (parseIntD r.tYBit % 2 == 1) (parseHexNat r.tX) = some u.lfTxPublicKey
    ∧ pointFromX (parseIntD r.cYBit % 2 == 1) (parseHexNat r.cX) = some u.lfCommitment
    ∧ u.index = r.index ∧ u.amount = numberToHex r.encAmount
    ∧ u.mask = numberToHex r.encMask
    ∧ u.commitmentX = r.cX ∧ u.pubkeyX = r.pX ∧ u.txPubX = r.tX := by
  unfold UTXO.make at h
  cases hp : pointFromX (parseIntD r.pYBit % 2 == 1) (parseHexNat r.pX) with
  | none => rw [hp] at h; cases h
  | some st =>
      rw [hp] at h
      cases ht : pointFromX (parseIntD r.tYBit % 2 == 1) (parseHexNat r.tX) with
      | none => rw [ht] at h; cases h
      | some txp =>
          rw [ht] at h
          cases hc : pointFromX (parseIntD r.cYBit % 2 == 1) (parseHexNat r.cX) with
          | none => rw [hc] at h; cases h
          | some cm =>
              rw [hc] at h
              injection h with h
              subst h
              exact ⟨rfl, rfl, rfl, rfl, rfl, rfl, rfl, rfl, rfl⟩

attribute [local irreducible] powModAux in
/-- C5: when each (X, parity) pair resolves, decoding succeeds and each
decoded point carries the given X and a Y whose parity matches the parity
field; when the checked square root fails for any of the three
X-coordinates, the whole decode call fails. -/
theorem decode_points (r : UTXOType) :
    ((pointFromX (parseIntD r.pYBit % 2 == 1) (parseHexNat r.pX)).isSome = true →
     (pointFromX (parseIntD r.tYBit % 2 == 1) (parseHexNat r.tX)).isSome = true →
     (pointFromX (parseIntD r.cYBit % 2 == 1) (parseHexNat r.cX)).isSome = true →
     ∃ u, UTXO.make r = some u
       ∧ u.lfStealth.x = parseHexNat r.pX
       ∧ (u.lfStealth.y % 2 = 1 ↔ parseIntD r.pYBit % 2 = 1)
       ∧ u.lfTxPublicKey.x = parseHexNat r.tX
       ∧ (u.lfTxPublicKey.y % 2 = 1 ↔ parseIntD r.tYBit % 2 = 1)
       ∧ u.lfCommitment.x = parseHexNat r.cX
       ∧ (u.lfCommitment.y % 2 = 1 ↔ parseIntD r.cYBit % 2 = 1))
    ∧ ((sqrtMod ((parseHexNat r.pX ^ 3 + 7) % fieldPrime) = none
        ∨ sqrtMod ((parseHexNat r.tX ^ 3 + 7) % fieldPrime) = none
        ∨ sqrtMod ((parseHexNat r.cX ^ 3 + 7) % fieldPrime) = none)
       → UTXO.make r = none) := by
  constructor
  · intro h1 h2 h3
    obtain ⟨st, hst⟩ := Option.isSome_iff_exists.mp h1
    obtain ⟨txp, htx⟩ := Option.isSome_iff_exists.mp h2
    obtain ⟨cm, hcm⟩ := Option.isSome_iff_exists.mp h3
    have Pst := pointFromX_some _ _ _ hst
    have Ptx := pointFromX_some _ _ _ htx
    have Pcm := pointFromX_some _ _ _ hcm
    have hmk : UTXO.make r = some
        { commitmentX := r.cX, commitmentYBit := r.cYBit
          pubkeyX := r.pX, pubkeyYBit := r.pYBit
          amount := numberToHex r.encAmount, mask := numberToHex r.encMask
          txPubX := r.tX, txPubYBit := r.tYBit
          index := r.index
          lfStealth := st, lfTxPublicKey := txp, lfCommitment := cm
          decodedAmount := none, decodedMask := none, privKey := none } := by
      unfold UTXO.make
      rw [hst, htx, hcm]
    exact ⟨_, hmk, Pst.1, by simpa using Pst.2, Ptx.1, by simpa using Ptx.2,
      Pcm.1, by simpa using Pcm.2⟩
  · intro hbad
    unfold UTXO.make
    rcases hbad with h | h | h
    · rw [pointFromX_none_of_sqrt_none _ _ h]
    · rw [pointFromX_none_of_sqrt_none (parseIntD r.tYBit % 2 == 1) _ h]
      cases pointFromX (parseIntD r.pYBit % 2 == 1) (parseHexNat r.pX) <;> rfl
    · rw [pointFromX_none_of_sqrt_none (parseIntD r.cYBit % 2 == 1) _ h]
      cases pointFromX (parseIntD r.pYBit % 2 == 1) (parseHexNat r.pX) <;>
        cases pointFromX (parseIntD r.tYBit % 2 == 1) (parseHexNat r.tX) <;> rfl

/-- C5 witness: the record carrying the base point three times decodes with
matching X and parity, and the record whose one-time-address X is 5 (off the
curve) fails to decode. -/
theorem decode_points_witness :
    (∃ u, UTXO.make gRecord = some u
      ∧ u.lfStealth.x = parseHexNat gRecord.pX
      ∧ (u.lfStealth.y % 2 = 1 ↔ parseIntD gRecord.pYBit % 2 = 1)
      ∧ u.lfTxPublicKey.x = parseHexNat gRecord.tX
      ∧ (u.lfTxPublicKey.y % 2 = 1 ↔ parseIntD gRecord.tYBit % 2 = 1)
      ∧ u.lfCommitment.x = parseHexNat gRecord.cX
      ∧ (u.lfCommitment.y % 2 = 1 ↔ parseIntD gRecord.cYBit % 2 = 1))
    ∧ UTXO.make badRecord = none :=
  ⟨(decode_points gRecord).1 (by decide) (by decide) (by decide),
   (decode_points badRecord).2 (Or.inl (by decide))⟩

/-- C6: for a 65-byte uncompressed buffer (one lead byte, 32-byte X,
32-byte Y), the parity bit computed from the big-endian integer of the last
33 bytes is `'0'` exactly when the Y coordinate alone is even, even though
the slice also contains the last byte of X. -/
theorem fromProof_parity_bit (b : Nat) (X Y : List Nat)
    (hX : X.length = 32) (hY : Y.length = 32) :
    parityBitStr (b :: (X ++ Y))
      = if bytesToNatBE Y % 2 = 0 then "0" else "1" := by
  have hlen : (b :: (X ++ Y)).length - 33 = 32 := by
    simp [hX, hY]
  have hslice : bufSliceNeg (b :: (X ++ Y)) 33 = X.drop 31 ++ Y := by
    unfold bufSliceNeg
    rw [hlen, show (32 : Nat) = 31 + 1 from rfl, List.drop_succ_cons,
      List.drop_append_eq_append_drop, hX]
    norm_num
  have hmod : bytesToNatBE (X.drop 31 ++ Y) % 2 = bytesToNatBE Y % 2 := by
    rw [bytesToNatBE_append, hY]
    obtain ⟨k, hk⟩ : (2 : Nat) ∣ 256 ^ 32 := ⟨2 ^ 255, by norm_num⟩
    rw [hk, show bytesToNatBE (X.drop 31) * (2 * k)
      = 2 * (bytesToNatBE (X.drop 31) * k) from by ring]
    omega
  unfold parityBitStr
  rw [hslice, hmod]

/-- C6 witness: the base point's Y is even, so the bit computed from its
65-byte encoding is the string `"0"`. -/
theorem fromProof_parity_bit_witness :
    parityBitStr (4 :: (natToBytesBE 32 gx ++ natToBytesBE 32 gy)) = "0" :=
  (fromProof_parity_bit 4 (natToBytesBE 32 gx) (natToBytesBE 32 gy)
    (by decide) (by decide)).trans (by decide)

/-- C9: a successfully constructed UTXO stores the record's index unchanged
and stores the two ciphertexts as the original ciphertext strings from the
record. -/
theorem make_preserves_ciphertexts_index (r : UTXOType) (u : UTXO)
    (h : UTXO.make r = some u) :
    u.index = r.index ∧ u.amount = r.encAmount ∧ u.mask = r.encMask := by
  have H := make_inv r u h
  exact ⟨H.2.2.2.1, H.2.2.2.2.1, H.2.2.2.2.2.1⟩

/-- C9 witness: the base-point record keeps index 7 and its two ciphertext
strings. -/
theorem make_preserves_ciphertexts_index_witness :
    gDecoded.index = gRecord.index ∧ gDecoded.amount = gRecord.encAmount
    ∧ gDecoded.mask = gRecord.encMask :=
  make_preserves_ciphertexts_index gRecord gDecoded (by decide)

attribute [local irreducible] powModAux in
/-- C10: the constructor reads each parity field as `parseInt(field) % 2`:
replacing the three parity strings by any strings with the same
`parseInt`-parity neither changes whether decoding succeeds nor the decoded
points, out-of-range values are reduced rather than rejected, and the
stealth point's Y parity agrees with the replaced string's parity. -/
theorem parity_bits_mod_two (r : UTXOType) (b0 b1 b2 : String)
    (h0 : parseIntD b0 % 2 = parseIntD r.cYBit % 2)
    (h1 : parseIntD b1 % 2 = parseIntD r.pYBit % 2)
    (h2 : parseIntD b2 % 2 = parseIntD r.tYBit % 2) :
    ((UTXO.make { r with cYBit := b0, pYBit := b1, tYBit := b2 }).isSome
      = (UTXO.make r).isSome)
    ∧ (∀ u' u, UTXO.make { r with cYBit := b0, pYBit := b1, tYBit := b2 } = some u' →
        UTXO.make r = some u →
        u'.lfStealth = u.lfStealth ∧ u'.lfTxPublicKey = u.lfTxPublicKey
        ∧ u'.lfCommitment = u.lfCommitment)
    ∧ (∀ u', UTXO.make { r with cYBit := b0, pYBit := b1, tYBit := b2 } = some u' →
        (u'.lfStealth.y % 2 = 1 ↔ parseIntD b1 % 2 = 1)) := by
  have e0 : (parseIntD b0 % 2 == 1) = (parseIntD r.cYBit % 2 == 1) := by rw [h0]
  have e1 : (parseIntD b1 % 2 == 1) = (parseIntD r.pYBit % 2 == 1) := by rw [h1]
  have e2 : (parseIntD b2 % 2 == 1) = (parseIntD r.tYBit % 2 == 1) := by rw [h2]
  have key : UTXO.make { r with cYBit := b0, pYBit := b1, tYBit := b2 }
      = (UTXO.make r).map
          (fun u => { u with commitmentYBit := b0, pubkeyYBit := b1,
                             txPubYBit := b2 }) := by
    unfold UTXO.make
    dsimp only
    rw [e0, e1, e2]
    cases pointFromX (parseIntD r.pYBit % 2 == 1) (parseHexNat r.pX) <;>
      cases pointFromX (parseIntD r.tYBit % 2 == 1) (parseHexNat r.tX) <;>
        cases pointFromX (parseIntD r.cYBit % 2 == 1) (parseHexNat r.cX) <;> rfl
  refine ⟨?_, ?_, ?_⟩
  · rw [key]
    cases UTXO.make r <;> rfl
  · intro u' u h' h
    rw [key, h] at h'
    injection h' with h'
    subst h'
    exact ⟨rfl, rfl, rfl⟩
  · intro u' h'
    rw [key] at h'
    cases hmk : UTXO.make r with
    | none => rw [hmk] at h'; cases h'
    | some u =>
        rw [hmk] at h'
        injection h' with h'
        subst h'
        have P := pointFromX_some _ _ _ (make_inv r u hmk).1
        show u.lfStealth.y % 2 = 1 ↔ parseIntD b1 % 2 = 1
        rw [h1]
        simpa using P.2

/-- C10 witness: parity strings "2", "4" and "10" act exactly like "0" on
the base-point record, which still decodes. -/
theorem parity_bits_mod_two_witness :
    ((UTXO.make { gRecord with cYBit := "2", pYBit := "4", tYBit := "10" }).isSome
      = (UTXO.make gRecord).isSome)
    ∧ (UTXO.make gRecord).isSome = true :=
  ⟨(parity_bits_mod_two gRecord "2" "4" "10"
      (by decide) (by decide) (by decide)).1,
   by decide⟩

/-- C3 (code bug): the proof's buffers are valid 65-byte encodings of the
on-curve base point, yet `fromProof` rebuilds each X-coordinate with
`slice(1, 33).join('')` — the concatenation of the decimal byte values — so
the UTXO it constructs carries the 102-digit number `badX` (larger than the
field prime itself) as all three X-coordinates instead of the point's X. -/
theorem fromProof_garbles_points :
    gy * gy % fieldPrime = (gx ^ 3 + 7) % fieldPrime
    ∧ (UTXO.fromProof gProof).map
        (fun u => (u.lfCommitment.x, u.lfStealth.x, u.lfTxPublicKey.x))
      = some (badX, badX, badX)
    ∧ badX ≠ gx ∧ fieldPrime < badX := by decide

end PrivacyJS
